import Mathlib

/-!
Shallow embedding of `gateway_manager.py` (BlackRoad Cloud Gateway).
Time stamps, latencies, thresholds and random draws are modelled as
rationals; Python dicts are modelled as insertion-ordered association
lists; mutation is modelled by explicit state passing.
-/

namespace Gateway

/-- Operational status of the gateway (`GatewayStatus` in the source). -/
inductive GatewayStatus
  | healthy
  | degraded
  | unhealthy
  | maintenance
  deriving DecidableEq

/-- Rate limiting strategies (`RateLimitStrategy` in the source). -/
inductive RateLimitStrategy
  | token_bucket
  | sliding_window
  | fixed_window
  deriving DecidableEq

/-- API route configuration (`RouteConfig` dataclass). -/
structure RouteConfig where
  path : String
  method : String
  backend_service : String
  backend_port : ℕ
  timeout_ms : ℕ := 5000
  retry_count : ℕ := 3
  circuit_breaker_threshold : ℚ := 1/2
  authentication_required : Bool := true
  rate_limit_requests : ℕ := 1000
  rate_limit_window_seconds : ℚ := 60
  enabled : Bool := true
  tags : List (String × String) := []
  deriving DecidableEq

/-- Backend service instance (`ServiceInstance` dataclass). -/
structure ServiceInstance where
  host : String
  port : ℕ
  weight : ℤ := 1
  health_check_interval_seconds : ℕ := 30
  max_connections : ℕ := 1000
  last_health_check : Option String := none
  is_healthy : Bool := true
  consecutive_failures : ℕ := 0
  deriving DecidableEq

/-- Rate limiting configuration (`RateLimitConfig` dataclass). -/
structure RateLimitConfig where
  strategy : RateLimitStrategy
  requests_per_window : ℕ
  window_size_seconds : ℚ
  cleanup_interval_seconds : ℚ := 300
  deriving DecidableEq

/-- The three circuit-breaker states.  The source stores them as the
strings "closed", "open" and "half-open"; `opened` stands for "open"
(a Lean keyword). -/
inductive CBState
  | closed
  | opened
  | halfOpen
  deriving DecidableEq

/-- Circuit breaker state (`CircuitBreaker` class attributes). -/
structure CircuitBreaker where
  threshold : ℚ := 1/2
  timeout_seconds : ℚ := 60
  failure_count : ℕ := 0
  success_count : ℕ := 0
  last_failure_time : Option ℚ := none
  state : CBState := .closed
  deriving DecidableEq

/-- `CircuitBreaker.record_success`: increment the success counter; a
half-open breaker transitions to closed with both counters reset. -/
def record_success (cb : CircuitBreaker) : CircuitBreaker :=
  let cb := { cb with success_count := cb.success_count + 1 }
  if cb.state = CBState.halfOpen then
    { cb with state := .closed, failure_count := 0, success_count := 0 }
  else cb

/-- `CircuitBreaker.record_failure`: increment the failure counter, stamp
the failure time, and open the breaker when the failure ratio exceeds the
threshold (`total > 0 and failure_count / total > threshold`). -/
def record_failure (now : ℚ) (cb : CircuitBreaker) : CircuitBreaker :=
  let cb := { cb with failure_count := cb.failure_count + 1,
                      last_failure_time := some now }
  let total : ℕ := cb.failure_count + cb.success_count
  if 0 < total ∧ (cb.failure_count : ℚ) / (total : ℚ) > cb.threshold then
    { cb with state := .opened }
  else cb

/-- `CircuitBreaker.can_execute`: closed and half-open always permit; an
open breaker permits (and transitions to half-open, resetting counters)
once the timeout has elapsed since the last failure.  The Python guard
`if self.last_failure_time` is falsy for `None` and for `0.0`, hence the
`t ≠ 0` conjunct. -/
def can_execute (now : ℚ) (cb : CircuitBreaker) : Bool × CircuitBreaker :=
  match cb.state with
  | .closed => (true, cb)
  | .opened =>
    match cb.last_failure_time with
    | some t =>
      if t ≠ 0 ∧ now - t > cb.timeout_seconds then
        (true, { cb with state := .halfOpen, failure_count := 0, success_count := 0 })
      else (false, cb)
    | none => (false, cb)
  | .halfOpen => (true, cb)

/-- One call against a circuit breaker: a failure report (at some time),
a success report, or a `can_execute` check (at some time). -/
inductive CBEvent
  | fail (now : ℚ)
  | succ
  | exec (now : ℚ)

/-- State reached after one circuit-breaker call. -/
def cbStep : CBEvent → CircuitBreaker → CircuitBreaker
  | .fail now, cb => record_failure now cb
  | .succ, cb => record_success cb
  | .exec now, cb => (can_execute now cb).2

/-- Insertion-ordered association-list lookup (Python `dict` access). -/
def lookupS {α : Type} (k : String) : List (String × α) → Option α
  | [] => none
  | (c, v) :: rest => if c = k then some v else lookupS k rest

/-- Insertion-ordered association-list update (Python `dict` assignment:
replace in place when the key exists, append otherwise). -/
def updateS {α : Type} (k : String) (v : α) : List (String × α) → List (String × α)
  | [] => [(k, v)]
  | (c, w) :: rest => if c = k then (c, v) :: rest else (c, w) :: updateS k v rest

/-- Rate limiter state (`RateLimiter` class): per-client timestamp
sequences, oldest first. -/
structure RateLimiter where
  config : RateLimitConfig
  buckets : List (String × List ℚ) := []
  deriving DecidableEq

/-- Current timestamp sequence of a client (`self.buckets[client_id]`,
empty when the key is absent — the source inserts `[]` for new keys). -/
def getBucket (client : String) (bs : List (String × List ℚ)) : List ℚ :=
  (lookupS client bs).getD []

/-- `RateLimiter.is_allowed`: prune the client's timestamps to the
window, then admit (appending `now`) iff the pruned count is below the
quota.  The client's key is (re)written in either case, matching the
source's `self.buckets[client_id] = ...`. -/
def is_allowed (now : ℚ) (client : String) (rl : RateLimiter) : Bool × RateLimiter :=
  let pruned := (getBucket client rl.buckets).filter
      (fun ts => now - ts < rl.config.window_size_seconds)
  if pruned.length < rl.config.requests_per_window then
    (true, { rl with buckets := updateS client (pruned ++ [now]) rl.buckets })
  else
    (false, { rl with buckets := updateS client pruned rl.buckets })

/-- Run a sequence of `is_allowed` calls for one client, collecting the
verdicts. -/
def runCalls (client : String) : List ℚ → RateLimiter → List Bool × RateLimiter
  | [], rl => ([], rl)
  | t :: ts, rl =>
    let p := is_allowed t client rl
    let q := runCalls client ts p.2
    (p.1 :: q.1, q.2)

/-- Load balancer state (`LoadBalancer` class). -/
structure LoadBalancer where
  strategy : String := "round_robin"
  current_index : ℕ := 0
  deriving DecidableEq

/-- Python `min(healthy, key=lambda x: x.max_connections)`: first
instance with the minimal `max_connections`. -/
def minByMaxConn : List ServiceInstance → Option ServiceInstance
  | [] => none
  | i :: rest =>
    some (rest.foldl (fun best x =>
      if x.max_connections < best.max_connections then x else best) i)

/-- The cumulative-weight walk of the weighted strategy: return the first
instance whose running weight total reaches the draw `r`. -/
def weightedPick (r : ℚ) : ℚ → List ServiceInstance → Option ServiceInstance
  | _, [] => none
  | acc, i :: rest =>
    let acc := acc + (i.weight : ℚ)
    if r ≤ acc then some i else weightedPick r acc rest

/-- `LoadBalancer.select_instance`.  The random draw of the weighted
strategy is passed in as `r`; the round-robin counter update is returned
in the new state. -/
def select_instance (r : ℚ) (lb : LoadBalancer) (instances : List ServiceInstance) :
    Option ServiceInstance × LoadBalancer :=
  let healthy := instances.filter (fun i => i.is_healthy)
  if healthy.isEmpty then (none, lb)
  else if lb.strategy = "round_robin" then
    (healthy.get? (lb.current_index % healthy.length),
     { lb with current_index := lb.current_index + 1 })
  else if lb.strategy = "least_connections" then
    (minByMaxConn healthy, lb)
  else if lb.strategy = "weighted" then
    let total : ℤ := (healthy.map (fun i => i.weight)).sum
    if total = 0 then (healthy.head?, lb)
    else
      match weightedPick r 0 healthy with
      | some i => (some i, lb)
      | none => (healthy.getLast?, lb)
  else (healthy.head?, lb)

/-- Run `n` consecutive `select_instance` calls (the draw is irrelevant
to the round-robin strategy and fixed at 0). -/
def rrRun : ℕ → LoadBalancer → List ServiceInstance → List (Option ServiceInstance) × LoadBalancer
  | 0, lb, _ => ([], lb)
  | n + 1, lb, instances =>
    let p := select_instance 0 lb instances
    let q := rrRun n p.2 instances
    (p.1 :: q.1, q.2)

/-- Metrics state (`GatewayMetrics` class attributes). -/
structure GatewayMetrics where
  requests_total : ℕ := 0
  requests_success : ℕ := 0
  requests_failed : ℕ := 0
  requests_latency_ms : List ℚ := []
  bytes_in : ℕ := 0
  bytes_out : ℕ := 0
  deriving DecidableEq

/-- `GatewayMetrics.record_request`: bump the totals, append the latency,
and keep only the last 10000 latency samples. -/
def record_request (success : Bool) (latency_ms : ℚ) (bin bout : ℕ)
    (m : GatewayMetrics) : GatewayMetrics :=
  let m := { m with
    requests_total := m.requests_total + 1,
    requests_success := if success then m.requests_success + 1 else m.requests_success,
    requests_failed := if success then m.requests_failed else m.requests_failed + 1,
    requests_latency_ms := m.requests_latency_ms ++ [latency_ms],
    bytes_in := m.bytes_in + bin,
    bytes_out := m.bytes_out + bout }
  if m.requests_latency_ms.length > 10000 then
    { m with requests_latency_ms :=
        m.requests_latency_ms.drop (m.requests_latency_ms.length - 10000) }
  else m

/-- Snapshot returned by `GatewayMetrics.get_stats`. -/
structure GatewayStats where
  requests_total : ℕ
  requests_success : ℕ
  requests_failed : ℕ
  success_rate : ℚ
  avg_latency_ms : ℚ
  p95_latency_ms : ℚ
  p99_latency_ms : ℚ
  bytes_in : ℕ
  bytes_out : ℕ
  deriving DecidableEq

/-- `GatewayMetrics.get_stats`.  `int(n * 0.95)` on a natural `n` is the
natural-number division `n * 95 / 100` (likewise for 0.99); out-of-range
indexing cannot occur since `n * 95 / 100 < n` for `n > 0`. -/
def get_stats (m : GatewayMetrics) : GatewayStats :=
  let l := m.requests_latency_ms
  let sorted := l.insertionSort (fun a b => a ≤ b)
  { requests_total := m.requests_total
    requests_success := m.requests_success
    requests_failed := m.requests_failed
    success_rate := (m.requests_success : ℚ) / (max 1 m.requests_total : ℕ)
    avg_latency_ms := if l.isEmpty then 0 else l.sum / (l.length : ℚ)
    p95_latency_ms := if l.isEmpty then 0 else sorted.getD (l.length * 95 / 100) 0
    p99_latency_ms := if l.isEmpty then 0 else sorted.getD (l.length * 99 / 100) 0
    bytes_in := m.bytes_in
    bytes_out := m.bytes_out }

/-- Gateway manager state (`APIGatewayManager` attributes; the config
path and file loading are I/O collaborators outside the decision core). -/
structure APIGatewayManager where
  routes : List (String × RouteConfig) := []
  services : List (String × List ServiceInstance) := []
  circuit_breakers : List (String × CircuitBreaker) := []
  rate_limiters : List (String × RateLimiter) := []
  load_balancers : List (String × LoadBalancer) := []
  metrics : GatewayMetrics := {}
  status : GatewayStatus := .healthy

/-- Route key `f"{route.method}:{route.path}"`. -/
def routeKey (route : RouteConfig) : String := route.method ++ ":" ++ route.path

/-- `APIGatewayManager.add_route`: store the route under its key, then
lazily create a LoadBalancer for the backend service and a RateLimiter
for the route key.  The source performs the three updates in sequence on
`self`; since the route write touches neither map and the balancer write
does not touch the limiter map, each guard reads the same value as in
the original state. -/
def add_route (route : RouteConfig) (m : APIGatewayManager) : APIGatewayManager :=
  let key := routeKey route
  let routes' := updateS key route m.routes
  let load_balancers' :=
    if (lookupS route.backend_service m.load_balancers).isSome then m.load_balancers
    else m.load_balancers ++ [(route.backend_service, ({} : LoadBalancer))]
  let rate_limiters' :=
    if (lookupS key m.rate_limiters).isSome then m.rate_limiters
    else m.rate_limiters ++ [(key,
      { config := { strategy := .sliding_window,
                    requests_per_window := route.rate_limit_requests,
                    window_size_seconds := route.rate_limit_window_seconds } })]
  { m with routes := routes', load_balancers := load_balancers',
           rate_limiters := rate_limiters' }

/-- `APIGatewayManager.register_service`: append the instance, lazily
creating the service entry and its CircuitBreaker. -/
def register_service (service_name : String) (inst : ServiceInstance)
    (m : APIGatewayManager) : APIGatewayManager :=
  let m :=
    if (lookupS service_name m.services).isSome then m
    else { m with services := m.services ++ [(service_name, [])],
                  circuit_breakers := m.circuit_breakers ++ [(service_name, {})] }
  { m with services :=
      updateS service_name ((getService service_name m.services) ++ [inst]) m.services }
where
  getService (k : String) (ss : List (String × List ServiceInstance)) :
      List ServiceInstance := (lookupS k ss).getD []

/-- Healthy-instance count of `health_check` (the source's misnamed
`healthy_services` accumulator counts healthy instances). -/
def healthyInstanceCount (m : APIGatewayManager) : ℕ :=
  (m.services.map (fun p => (p.2.filter (fun i => i.is_healthy)).length)).sum

/-- `APIGatewayManager.health_check`: the ratio divides the healthy
instance count by `total_services * 2` ("avg 2 instances per service"
in the source comment). -/
def health_check (m : APIGatewayManager) : GatewayStatus × APIGatewayManager :=
  let total_services := m.services.length
  if total_services = 0 then (.healthy, { m with status := .healthy })
  else
    let health_ratio : ℚ := (healthyInstanceCount m : ℚ) / ((total_services * 2 : ℕ) : ℚ)
    let st : GatewayStatus :=
      if health_ratio > 3/4 then .healthy
      else if health_ratio > 1/2 then .degraded
      else .unhealthy
    (st, { m with status := st })

/-- The status computation as the spec's §3 words it: the ratio of
healthy instances to total instances across all services (refinement
comparison target, not from the source). -/
def health_check_claimed (m : APIGatewayManager) : GatewayStatus :=
  if m.services.length = 0 then .healthy
  else
    let totalInstances : ℕ := (m.services.map (fun p => p.2.length)).sum
    let ratio : ℚ := (healthyInstanceCount m : ℚ) / (totalInstances : ℚ)
    if ratio > 3/4 then .healthy
    else if ratio > 1/2 then .degraded
    else .unhealthy

/-- Admission errors of the decision pipeline (spec §7 error taxonomy). -/
inductive AdmissionError
  | routeNotFound
  | routeDisabled
  | rateLimited
  | circuitOpen
  | noHealthyInstance
  deriving DecidableEq

/-- Default rate limiter for a route (the configuration `add_route`
would create for it). -/
def defaultLimiter (route : RouteConfig) : RateLimiter :=
  { config := { strategy := .sliding_window,
                requests_per_window := route.rate_limit_requests,
                window_size_seconds := route.rate_limit_window_seconds } }

/-- The rate limiter the registry holds for a route key (a fresh one
when absent, matching lazy creation). -/
def routeLimiter (route_key : String) (route : RouteConfig)
    (m : APIGatewayManager) : RateLimiter :=
  (lookupS route_key m.rate_limiters).getD (defaultLimiter route)

/-- The circuit breaker the registry holds for a backend service (a
fresh closed one when absent, matching lazy creation). -/
def serviceBreaker (service_name : String) (m : APIGatewayManager) : CircuitBreaker :=
  (lookupS service_name m.circuit_breakers).getD {}

/-- The load balancer the registry holds for a backend service (a fresh
round-robin one when absent, matching lazy creation). -/
def serviceBalancer (service_name : String) (m : APIGatewayManager) : LoadBalancer :=
  (lookupS service_name m.load_balancers).getD {}

/-- The registered instance list of a backend service. -/
def serviceInstances (service_name : String) (m : APIGatewayManager) :
    List ServiceInstance :=
  (lookupS service_name m.services).getD []

/-- Modelled from the spec: the source file has no `admit_and_route`
method on `APIGatewayManager`; spec §4.5/§6 describe it as sequencing
route lookup (fails if unknown or disabled), the route's rate-limiter
check, the circuit-breaker check of the route's backend service, and
load-balancer selection, returning the chosen instance.  The components
themselves are the source-embedded ones above; a missing limiter,
breaker or balancer behaves as a fresh one (the registry creates them
lazily).  `now` is the current time and `r` the weighted strategy's
random draw; each stage's state update is written back to its own map
(the maps are disjoint fields, so every stage reads the value the
previous stages left unchanged). -/
def admission_and_route (now r : ℚ) (route_key client_id : String)
    (m : APIGatewayManager) : Except AdmissionError ServiceInstance × APIGatewayManager :=
  match lookupS route_key m.routes with
  | none => (.error .routeNotFound, m)
  | some route =>
    if route.enabled = false then (.error .routeDisabled, m)
    else
      let ap := is_allowed now client_id (routeLimiter route_key route m)
      if ap.1 = false then
        (.error .rateLimited,
         { m with rate_limiters := updateS route_key ap.2 m.rate_limiters })
      else
        let cp := can_execute now (serviceBreaker route.backend_service m)
        if cp.1 = false then
          (.error .circuitOpen,
           { m with rate_limiters := updateS route_key ap.2 m.rate_limiters,
                    circuit_breakers :=
                      updateS route.backend_service cp.2 m.circuit_breakers })
        else
          let sp := select_instance r (serviceBalancer route.backend_service m)
            (serviceInstances route.backend_service m)
          let final := { m with
            rate_limiters := updateS route_key ap.2 m.rate_limiters,
            circuit_breakers := updateS route.backend_service cp.2 m.circuit_breakers,
            load_balancers := updateS route.backend_service sp.2 m.load_balancers }
          match sp.1 with
          | none => (.error .noHealthyInstance, final)
          | some i => (.ok i, final)

/-- Cumulative weight of the first `j + 1` instances of a list. -/
def cumWeight (l : List ServiceInstance) (j : ℕ) : ℚ :=
  ((l.take (j + 1)).map (fun i => (i.weight : ℚ))).sum

/-- Record a batch of successful requests (latency only). -/
def recordAll (ls : List ℚ) (m : GatewayMetrics) : GatewayMetrics :=
  ls.foldl (fun acc t => record_request true t 0 0 acc) m

/-- The latencies 1, 2, ..., n as rationals. -/
def latencySeq (n : ℕ) : List ℚ := (List.range n).map (fun i : ℕ => (i : ℚ) + 1)

/-- Route config `GET /u -> s:1` used by the C10 witness. -/
def routeU1 : RouteConfig :=
  { path := "/u", method := "GET", backend_service := "s", backend_port := 1 }

/-- Route config `GET /u -> s:2` used by the C10 witness. -/
def routeU2 : RouteConfig :=
  { path := "/u", method := "GET", backend_service := "s", backend_port := 2 }

/-- Backend instance used by the C1 witness. -/
def instC1 : ServiceInstance := { host := "h", port := 9 }

/-- Route used by the C1 witness. -/
def routeC1 : RouteConfig :=
  { path := "/v", method := "GET", backend_service := "svc", backend_port := 1 }

/-- Registry used by the C1 witness: one route and one registered
healthy instance for its backend service. -/
def mC1 : APIGatewayManager :=
  { routes := [("GET:/v", routeC1)], services := [("svc", [instC1])] }

/-! ## Association-list lemmas -/

lemma lookupS_updateS_self {α : Type} (k : String) (v : α) (l : List (String × α)) :
    lookupS k (updateS k v l) = some v := by
  induction l with
  | nil => simp [updateS, lookupS]
  | cons p rest ih =>
    obtain ⟨c, w⟩ := p
    by_cases h : c = k <;> simp [updateS, lookupS, h, ih]

lemma lookupS_updateS_ne {α : Type} (k k' : String) (v : α) (l : List (String × α))
    (h : k' ≠ k) : lookupS k' (updateS k v l) = lookupS k' l := by
  induction l with
  | nil => simp [updateS, lookupS, Ne.symm h]
  | cons p rest ih =>
    obtain ⟨c, w⟩ := p
    by_cases hc : c = k
    · subst hc
      have hne : ¬ c = k' := fun hck => h hck.symm
      simp [updateS, lookupS, hne]
    · simp [updateS, lookupS, hc, ih]

lemma getBucket_updateS (client : String) (l : List ℚ) (bs : List (String × List ℚ)) :
    getBucket client (updateS client l bs) = l := by
  simp [getBucket, lookupS_updateS_self]

lemma length_updateS {α : Type} (k : String) (v : α) (l : List (String × α)) :
    (updateS k v l).length = if (lookupS k l).isSome then l.length else l.length + 1 := by
  induction l with
  | nil => simp [updateS, lookupS]
  | cons p rest ih =>
    obtain ⟨c, w⟩ := p
    by_cases h : c = k
    · simp [updateS, lookupS, h]
    · simp only [updateS, lookupS, h, if_false, ite_false, List.length_cons, ih]
      split <;> simp

/-! ## Rate limiter runs (C3, C6) -/

lemma runCalls_append (client : String) (ts us : List ℚ) (rl : RateLimiter) :
    runCalls client (ts ++ us) rl =
      ((runCalls client ts rl).1 ++ (runCalls client us (runCalls client ts rl).2).1,
       (runCalls client us (runCalls client ts rl).2).2) := by
  induction ts generalizing rl with
  | nil => simp [runCalls]
  | cons t ts ih => simp [runCalls, ih]

/-- While a client's pruned bucket stays below the quota and every call
falls inside the window of every retained timestamp, each call is
admitted and appends its timestamp. -/
lemma runCalls_all_allowed (client : String) (N : ℕ) (W : ℚ) (ts : List ℚ) :
    ∀ (rl : RateLimiter) (b : List ℚ),
    rl.config.requests_per_window = N →
    rl.config.window_size_seconds = W →
    getBucket client rl.buckets = b →
    b.length + ts.length ≤ N →
    (∀ t ∈ ts, ∀ x ∈ b ++ ts, t - x < W) →
    (runCalls client ts rl).1 = List.replicate ts.length true ∧
    getBucket client (runCalls client ts rl).2.buckets = b ++ ts ∧
    (runCalls client ts rl).2.config = rl.config := by
  induction ts with
  | nil =>
    intro rl b _ _ h3 _ _
    simp [runCalls, h3]
  | cons t ts ih =>
    intro rl b h1 h2 h3 h4 h5
    have hfilt : (getBucket client rl.buckets).filter
        (fun x => t - x < rl.config.window_size_seconds) = b := by
      rw [h3]
      apply List.filter_eq_self.mpr
      intro x hx
      simp only [decide_eq_true_eq]
      rw [h2]
      exact h5 t (by simp) x (by simp [hx])
    have hlt : b.length < rl.config.requests_per_window := by
      rw [h1]; simp at h4; omega
    have hstep : is_allowed t client rl =
        (true, { rl with buckets := updateS client (b ++ [t]) rl.buckets }) := by
      simp [is_allowed, hfilt, hlt]
    have hrest := ih { rl with buckets := updateS client (b ++ [t]) rl.buckets } (b ++ [t])
      h1 h2 (getBucket_updateS _ _ _) (by simp at h4 ⊢; omega)
      (by
        intro u hu x hx
        refine h5 u (by simp [hu]) x ?_
        simp at hx ⊢
        tauto)
    refine ⟨?_, ?_, ?_⟩
    · simp [runCalls, hstep, hrest.1, List.replicate_succ]
    · simp [runCalls, hstep, hrest.2.1]
    · simp [runCalls, hstep, hrest.2.2]

/-- Claim C3: with quota `N ≥ 1` over window `W`, `N + 1` calls all
within `W` seconds of each other are admitted for the first `N` and
denied for the last, the denied call appending no timestamp; a later
call more than `W` seconds after all earlier requests is admitted
again. -/
theorem claim_C3 (N : ℕ) (W : ℚ) (hN : 0 < N) (ts : List ℚ) (hlen : ts.length = N)
    (tN tnext : ℚ) (client : String)
    (hwin : ∀ t ∈ ts ++ [tN], ∀ x ∈ ts ++ [tN], t - x < W)
    (hgap : ∀ x ∈ ts, tnext - x > W) :
    let rl0 : RateLimiter := { config := { strategy := .sliding_window,
                                           requests_per_window := N,
                                           window_size_seconds := W } }
    (runCalls client (ts ++ [tN]) rl0).1 = List.replicate N true ++ [false] ∧
    getBucket client (runCalls client (ts ++ [tN]) rl0).2.buckets = ts ∧
    (is_allowed tnext client (runCalls client (ts ++ [tN]) rl0).2).1 = true := by
  intro rl0
  have hfirst := runCalls_all_allowed client N W ts rl0 [] rfl rfl (by simp [getBucket, lookupS])
    (by simp [hlen]) (by
      intro t ht x hx
      exact hwin t (by simp [ht]) x (by simp at hx; simp [hx]))
  set rl1 := (runCalls client ts rl0).2 with hrl1
  have hNcfg : rl1.config.requests_per_window = N := by rw [hfirst.2.2]
  have hWcfg : rl1.config.window_size_seconds = W := by rw [hfirst.2.2]
  have hfiltN : (getBucket client rl1.buckets).filter
      (fun x => tN - x < rl1.config.window_size_seconds) = ts := by
    rw [hfirst.2.1]
    simp only [List.nil_append]
    apply List.filter_eq_self.mpr
    intro x hx
    simp only [decide_eq_true_eq]
    rw [hWcfg]
    exact hwin tN (by simp) x (by simp [hx])
  have hstepN : is_allowed tN client rl1 =
      (false, { rl1 with buckets := updateS client ts rl1.buckets }) := by
    simp only [is_allowed, hfiltN]
    rw [if_neg (by rw [hNcfg, hlen]; omega)]
  have hbucket2 : getBucket client (runCalls client (ts ++ [tN]) rl0).2.buckets = ts := by
    rw [runCalls_append, ← hrl1]
    simp [runCalls, hstepN, getBucket_updateS]
  refine ⟨?_, hbucket2, ?_⟩
  · rw [runCalls_append, ← hrl1, hfirst.1, hlen]
    simp [runCalls, hstepN]
  · have hcfg2 : (runCalls client (ts ++ [tN]) rl0).2.config = rl0.config := by
      rw [runCalls_append, ← hrl1]
      simp [runCalls, hstepN, hfirst.2.2]
    have hfilt3 : (getBucket client (runCalls client (ts ++ [tN]) rl0).2.buckets).filter
        (fun x => tnext - x <
          (runCalls client (ts ++ [tN]) rl0).2.config.window_size_seconds) = [] := by
      rw [hbucket2, hcfg2]
      apply List.filter_eq_nil_iff.mpr
      intro x hx
      simp only [decide_eq_true_eq]
      intro hcon
      exact absurd hcon (not_lt.mpr (le_of_lt (hgap x hx)))
    simp only [is_allowed, hfilt3]
    rw [if_pos (by rw [hcfg2]; simpa using hN)]

/-- Witness for C3: quota 2 over a 10-second window; calls at times
0, 1, 2 give admitted, admitted, denied, and a call at time 20 is
admitted again. -/
theorem claim_C3_witness :
    let rl0 : RateLimiter := { config := { strategy := .sliding_window,
                                           requests_per_window := 2,
                                           window_size_seconds := 10 } }
    (runCalls "c" ([0, 1] ++ [2]) rl0).1 = List.replicate 2 true ++ [false] ∧
    getBucket "c" (runCalls "c" ([0, 1] ++ [2]) rl0).2.buckets = [0, 1] ∧
    (is_allowed 20 "c" (runCalls "c" ([0, 1] ++ [2]) rl0).2).1 = true :=
  claim_C3 2 10 (by norm_num) [0, 1] rfl 2 20 "c"
    (by
      intro t ht x hx
      simp at ht hx
      rcases ht with rfl | rfl | rfl <;> rcases hx with rfl | rfl | rfl <;> norm_num)
    (by
      intro x hx
      simp at hx
      rcases hx with rfl | rfl <;> norm_num)

/-! ## Circuit breaker (C2) -/

/-- Claim C2: over all single steps (hence all sequences from the closed
state), closed→open happens only on a `record_failure` after which the
failure ratio over a positive total exceeds the threshold (a zero total
keeps the breaker closed); open→half-open happens only on a
`can_execute` more than `timeout_seconds` after the last failure, which
resets both counters and returns true; half-open→closed happens only on
a `record_success`, which resets both counters. -/
theorem claim_C2 (cb : CircuitBreaker) (e : CBEvent) :
    (cb.state = .closed → (cbStep e cb).state = .opened →
      ∃ now, e = .fail now ∧
        0 < (cbStep e cb).failure_count + (cbStep e cb).success_count ∧
        ((cbStep e cb).failure_count : ℚ) /
          (((cbStep e cb).failure_count + (cbStep e cb).success_count : ℕ) : ℚ) >
          cb.threshold) ∧
    (cb.state = .closed → (cbStep e cb).failure_count + (cbStep e cb).success_count = 0 →
      (cbStep e cb).state = .closed) ∧
    (cb.state = .opened → (cbStep e cb).state = .halfOpen →
      ∃ now, e = .exec now ∧
        (∃ t, cb.last_failure_time = some t ∧ now - t > cb.timeout_seconds) ∧
        (cbStep e cb).failure_count = 0 ∧ (cbStep e cb).success_count = 0 ∧
        (can_execute now cb).1 = true) ∧
    (cb.state = .halfOpen → (cbStep e cb).state = .closed →
      e = .succ ∧ (cbStep e cb).failure_count = 0 ∧ (cbStep e cb).success_count = 0) := by
  refine ⟨?_, ?_, ?_, ?_⟩ <;> cases e <;>
    simp only [cbStep, record_failure, record_success, can_execute] <;>
    intro hst
  case fail now =>
    split
    · intro _
      refine ⟨now, rfl, ?_⟩
      simp_all
    · simp_all
  case succ =>
    split <;> simp_all
  case exec now =>
    rw [hst]
    simp [hst]
  case fail now =>
    split <;> simp_all
  case succ =>
    split <;> simp_all
  case exec now =>
    rw [hst]
    simp [hst]
  case fail now =>
    split <;> simp_all
  case succ =>
    split <;> simp_all
  case exec now =>
    rw [hst]
    cases hlf : cb.last_failure_time with
    | none => simp [hst]
    | some t =>
      simp only
      split
      case isTrue h =>
        intro _
        exact ⟨now, rfl, ⟨t, rfl, h.2⟩, rfl, rfl,
          by simp [can_execute, hst, hlf, h.1, h.2]⟩
      case isFalse h =>
        simp [hst]
  case fail now =>
    split <;> simp_all
  case succ =>
    split <;> simp_all
  case exec now =>
    rw [hst]
    simp [hst]

/-- Witness for C2: a fresh breaker (threshold 1/2) that records one
failure at time 5 opens, with ratio 1/1 > 1/2 over a positive total. -/
theorem claim_C2_witness :
    ∃ now, CBEvent.fail 5 = CBEvent.fail now ∧
      0 < (cbStep (.fail 5) {}).failure_count + (cbStep (.fail 5) {}).success_count ∧
      ((cbStep (.fail 5) {}).failure_count : ℚ) /
        (((cbStep (.fail 5) {}).failure_count + (cbStep (.fail 5) {}).success_count : ℕ) : ℚ) >
        ({} : CircuitBreaker).threshold :=
  (claim_C2 {} (.fail 5)).1 rfl (by norm_num [cbStep, record_failure])

/-! ## Load balancer: round robin (C7) and healthy-set safety (C9) -/

lemma map_get?_range {α : Type} (l : List α) :
    (List.range l.length).map l.get? = l.map some := by
  induction l with
  | nil => simp
  | cons a l ih =>
    simp only [List.length_cons, List.range_succ_eq_map, List.map_cons, List.map_map,
      Function.comp_def, List.get?_cons_succ, List.get?_cons_zero]
    rw [ih]

lemma range_map_mod_perm (c K : ℕ) (hK : 0 < K) :
    ((List.range K).map (fun i => (c + i) % K)).Perm (List.range K) := by
  have hnodup : ((List.range K).map (fun i => (c + i) % K)).Nodup := by
    refine List.Nodup.map_on ?_ (List.nodup_range K)
    intro i hi j hj hij
    have hmod : i ≡ j [MOD K] := Nat.ModEq.add_left_cancel' c hij
    exact hmod.eq_of_lt_of_lt (List.mem_range.mp hi) (List.mem_range.mp hj)
  have hsub : ((List.range K).map (fun i => (c + i) % K)) ⊆ List.range K := by
    intro x hx
    simp only [List.mem_map] at hx
    obtain ⟨i, _, rfl⟩ := hx
    exact List.mem_range.mpr (Nat.mod_lt _ hK)
  exact (hnodup.subperm hsub).perm_of_length_le (by simp)

lemma select_rr (r : ℚ) (lb : LoadBalancer) (instances : List ServiceInstance)
    (hs : lb.strategy = "round_robin")
    (hne : instances.filter (fun i => i.is_healthy) ≠ []) :
    select_instance r lb instances =
      ((instances.filter (fun i => i.is_healthy)).get?
        (lb.current_index % (instances.filter (fun i => i.is_healthy)).length),
       { lb with current_index := lb.current_index + 1 }) := by
  simp [select_instance, hs, List.isEmpty_iff, hne]

lemma rrRun_eq (n : ℕ) (lb : LoadBalancer) (instances : List ServiceInstance)
    (hs : lb.strategy = "round_robin")
    (hne : instances.filter (fun i => i.is_healthy) ≠ []) :
    rrRun n lb instances =
      ((List.range n).map (fun i =>
        (instances.filter (fun j => j.is_healthy)).get?
          ((lb.current_index + i) % (instances.filter (fun j => j.is_healthy)).length)),
       { lb with current_index := lb.current_index + n }) := by
  induction n generalizing lb with
  | zero => simp [rrRun]
  | succ n ih =>
    have hstep := select_rr 0 lb instances hs hne
    have hrec := ih { lb with current_index := lb.current_index + 1 } hs
    simp only [rrRun, hstep, hrec]
    refine Prod.ext ?_ ?_
    · simp only [List.range_succ_eq_map, List.map_cons, List.map_map, Function.comp_def]
      congr 1
      apply List.map_congr_left
      intro i _
      congr 2
      omega
    · simp only
      congr 1
      omega

/-- Claim C7: with the round-robin strategy over a static healthy set of
size `K`, each call returns the instance at index `counter mod K` and
increments the counter by exactly one, and `K` consecutive calls return
each healthy instance exactly once (a permutation of the healthy set),
for every starting counter. -/
theorem claim_C7 (lb : LoadBalancer) (instances : List ServiceInstance)
    (hs : lb.strategy = "round_robin")
    (hK : 0 < (instances.filter (fun i => i.is_healthy)).length) :
    let healthy := instances.filter (fun i => i.is_healthy)
    let K := healthy.length
    (select_instance 0 lb instances).1 = healthy.get? (lb.current_index % K) ∧
    (select_instance 0 lb instances).2.current_index = lb.current_index + 1 ∧
    (rrRun K lb instances).2.current_index = lb.current_index + K ∧
    (∀ i, i < K → (rrRun K lb instances).1.get? i =
      some (healthy.get? ((lb.current_index + i) % K))) ∧
    ((rrRun K lb instances).1).Perm (healthy.map some) := by
  intro healthy K
  have hne : healthy ≠ [] := List.length_pos.mp hK
  have hsel := select_rr 0 lb instances hs hne
  have hrun := rrRun_eq K lb instances hs hne
  refine ⟨by rw [hsel], by rw [hsel], by rw [hrun], ?_, ?_⟩
  · intro i hi
    rw [hrun]
    simp only [List.get?_eq_getElem?, List.getElem?_map, List.getElem?_range hi,
      Option.map_some']
  · rw [hrun]
    have hsplit : (List.range K).map (fun i => healthy.get? ((lb.current_index + i) % K)) =
        ((List.range K).map (fun i => (lb.current_index + i) % K)).map healthy.get? := by
      rw [List.map_map]
      rfl
    simp only
    rw [hsplit, ← map_get?_range healthy]
    exact (range_map_mod_perm lb.current_index K hK).map healthy.get?

lemma foldl_min_mem : ∀ (rest : List ServiceInstance) (a : ServiceInstance),
    rest.foldl (fun best x =>
      if x.max_connections < best.max_connections then x else best) a ∈ a :: rest := by
  intro rest
  induction rest with
  | nil => intro a; simp
  | cons b rest ih =>
    intro a
    simp only [List.foldl_cons]
    by_cases h : b.max_connections < a.max_connections
    · have := ih b
      simp only [h, if_true, List.mem_cons] at this ⊢
      tauto
    · have := ih a
      simp only [h, if_false, List.mem_cons] at this ⊢
      tauto

lemma minByMaxConn_mem (l : List ServiceInstance) (i : ServiceInstance)
    (h : minByMaxConn l = some i) : i ∈ l := by
  match l with
  | [] => simp [minByMaxConn] at h
  | a :: rest =>
    simp only [minByMaxConn, Option.some.injEq] at h
    rw [← h]
    exact foldl_min_mem rest a

lemma weightedPick_mem (r : ℚ) : ∀ (l : List ServiceInstance) (acc : ℚ)
    (i : ServiceInstance), weightedPick r acc l = some i → i ∈ l := by
  intro l
  induction l with
  | nil => intro acc i h; simp [weightedPick] at h
  | cons a rest ih =>
    intro acc i h
    simp only [weightedPick] at h
    split at h
    · simp only [Option.some.injEq] at h
      rw [← h]
      exact List.mem_cons_self a rest
    · exact List.mem_cons_of_mem _ (ih _ _ h)

/-- A returned instance always comes from the healthy subset, whatever
the strategy and the draw. -/
lemma select_mem_healthy (r : ℚ) (lb : LoadBalancer) (instances : List ServiceInstance)
    (inst : ServiceInstance) (h : (select_instance r lb instances).1 = some inst) :
    inst ∈ instances.filter (fun i => i.is_healthy) := by
  simp only [select_instance] at h
  by_cases he : (instances.filter (fun i => i.is_healthy)).isEmpty
  · simp [he] at h
  · have hne : instances.filter (fun i => i.is_healthy) ≠ [] := by
      simpa [List.isEmpty_iff] using he
    simp only [he, Bool.false_eq_true, if_false] at h
    split_ifs at h with h1 h2 h3 h4
    · exact List.get?_mem h
    · exact minByMaxConn_mem _ _ h
    · have h' : (instances.filter (fun i => i.is_healthy)).head? = some inst := h
      exact List.mem_of_mem_head? h'
    · rcases hpick : weightedPick r 0 (instances.filter (fun i => i.is_healthy))
        with _ | i0
      · rw [hpick] at h
        have h' : (instances.filter (fun i => i.is_healthy)).getLast? = some inst := h
        rw [List.getLast?_eq_getLast _ hne] at h'
        injection h' with h''
        rw [← h'']
        exact List.getLast_mem hne
      · rw [hpick] at h
        have h' : some i0 = some inst := h
        injection h' with h''
        rw [← h'']
        exact weightedPick_mem r _ _ _ hpick
    · have h' : (instances.filter (fun i => i.is_healthy)).head? = some inst := h
      exact List.mem_of_mem_head? h'

/-- A non-empty healthy subset always yields a selection, whatever the
strategy and the draw. -/
lemma select_isSome (r : ℚ) (lb : LoadBalancer) (instances : List ServiceInstance)
    (hne : instances.filter (fun i => i.is_healthy) ≠ []) :
    ((select_instance r lb instances).1).isSome := by
  simp only [select_instance]
  have he : (instances.filter (fun i => i.is_healthy)).isEmpty = false := by
    simpa [List.isEmpty_iff] using hne
  simp only [he, Bool.false_eq_true, if_false]
  split_ifs with h1 h2 h3 h4
  · have hlt : lb.current_index % (instances.filter (fun i => i.is_healthy)).length <
        (instances.filter (fun i => i.is_healthy)).length :=
      Nat.mod_lt _ (List.length_pos.mpr hne)
    simp only [List.get?_eq_getElem?, List.getElem?_eq_getElem hlt, Option.isSome_some]
  · obtain ⟨a, rest, hl⟩ := List.exists_cons_of_ne_nil hne
    rw [hl]
    simp [minByMaxConn]
  · simp only [List.head?_eq_head hne, Option.isSome_some]
  · rcases hpick : weightedPick r 0 (instances.filter (fun i => i.is_healthy))
      with _ | i0
    · simp only [List.getLast?_eq_getLast _ hne, Option.isSome_some]
    · simp only [Option.isSome_some]
  · simp only [List.head?_eq_head hne, Option.isSome_some]

/-- Claim C9: `select_instance` returns no instance exactly when the
input list has no healthy instance, and a returned instance is a healthy
member of the input list — for every strategy string and every draw. -/
theorem claim_C9 (r : ℚ) (lb : LoadBalancer) (instances : List ServiceInstance) :
    ((select_instance r lb instances).1 = none ↔
      instances.filter (fun i => i.is_healthy) = []) ∧
    ∀ inst, (select_instance r lb instances).1 = some inst →
      inst ∈ instances ∧ inst.is_healthy = true := by
  refine ⟨⟨?_, ?_⟩, ?_⟩
  · intro h
    by_contra hne
    have := select_isSome r lb instances hne
    rw [h] at this
    simp at this
  · intro h
    simp [select_instance, List.isEmpty_iff, h]
  · intro inst h
    have hmem := select_mem_healthy r lb instances inst h
    rw [List.mem_filter] at hmem
    exact ⟨hmem.1, by simpa using hmem.2⟩

/-- Witness for C9: a single healthy instance is selected by the default
round-robin balancer and is a healthy member of the list. -/
theorem claim_C9_witness :
    ({ host := "a", port := 1 } : ServiceInstance) ∈
        [({ host := "a", port := 1 } : ServiceInstance)] ∧
      ({ host := "a", port := 1 } : ServiceInstance).is_healthy = true :=
  (claim_C9 0 {} [{ host := "a", port := 1 }]).2 { host := "a", port := 1 } (by
    simp [select_instance, List.filter])

/-! ## Load balancer: weighted strategy (C5) -/

lemma cumWeight_zero (a : ServiceInstance) (rest : List ServiceInstance) :
    cumWeight (a :: rest) 0 = (a.weight : ℚ) := by
  simp [cumWeight]

lemma cumWeight_succ (a : ServiceInstance) (rest : List ServiceInstance) (j : ℕ) :
    cumWeight (a :: rest) (j + 1) = (a.weight : ℚ) + cumWeight rest j := by
  simp [cumWeight, List.take_succ_cons]

lemma cumWeight_zero_get (l : List ServiceInstance) (h : 0 < l.length) :
    cumWeight l 0 = ((l.get ⟨0, h⟩).weight : ℚ) := by
  match l, h with
  | a :: rest, _ => simp [cumWeight]

lemma cumWeight_succ_get (l : List ServiceInstance) (j : ℕ) (hj : j + 1 < l.length) :
    cumWeight l (j + 1) = cumWeight l j + ((l.get ⟨j + 1, hj⟩).weight : ℚ) := by
  have hj' : j + 1 < (l.map (fun i => (i.weight : ℚ))).length := by simpa using hj
  rw [cumWeight, cumWeight, List.map_take, List.map_take,
    List.sum_take_succ _ _ hj']
  congr 1
  simp [List.get_eq_getElem]

lemma cumWeight_last (l : List ServiceInstance) (hne : l ≠ []) :
    cumWeight l (l.length - 1) = (((l.map (fun i => i.weight)).sum : ℤ) : ℚ) := by
  have h : l.length - 1 + 1 = l.length := by
    have := List.length_pos.mpr hne
    omega
  have hsum := map_list_sum (Int.castRingHom ℚ) (l.map (fun i => i.weight))
  simp only [Int.coe_castRingHom, List.map_map, Function.comp_def] at hsum
  rw [cumWeight, h, List.take_length, ← hsum]

/-- The cumulative-weight walk returns the first instance (in insertion
order) whose cumulative weight meets or exceeds the draw. -/
lemma weightedPick_first (r : ℚ) : ∀ (l : List ServiceInstance) (acc : ℚ) (j : ℕ)
    (hj : j < l.length),
    r ≤ acc + cumWeight l j →
    (∀ k, k < j → acc + cumWeight l k < r) →
    weightedPick r acc l = some (l.get ⟨j, hj⟩) := by
  intro l
  induction l with
  | nil =>
    intro acc j hj
    simp at hj
  | cons a rest ih =>
    intro acc j hj hle hlt
    match j with
    | 0 =>
      simp only [weightedPick]
      rw [if_pos (by rw [cumWeight_zero] at hle; exact hle)]
      rfl
    | j + 1 =>
      have h0 := hlt 0 (Nat.succ_pos j)
      rw [cumWeight_zero] at h0
      simp only [weightedPick]
      rw [if_neg (not_le.mpr h0)]
      have hle' : r ≤ (acc + (a.weight : ℚ)) + cumWeight rest j := by
        rw [cumWeight_succ] at hle
        linarith
      have hlt' : ∀ k, k < j → (acc + (a.weight : ℚ)) + cumWeight rest k < r := by
        intro k hk
        have := hlt (k + 1) (Nat.succ_lt_succ hk)
        rw [cumWeight_succ] at this
        linarith
      rw [ih (acc + (a.weight : ℚ)) j (by simpa using hj) hle' hlt']
      rfl

/-- Existence and minimality of the selected index when the draw does
not exceed the total weight. -/
lemma weightedPick_first_index (r : ℚ) (l : List ServiceInstance) (hne : l ≠ [])
    (hr : r ≤ cumWeight l (l.length - 1)) :
    ∃ j, ∃ hj : j < l.length, weightedPick r 0 l = some (l.get ⟨j, hj⟩) ∧
      r ≤ cumWeight l j ∧ ∀ k, k < j → cumWeight l k < r := by
  have hex : ∃ j, r ≤ cumWeight l j := ⟨l.length - 1, hr⟩
  have hj0 : r ≤ cumWeight l (Nat.find hex) := Nat.find_spec hex
  have hmin : ∀ k, k < Nat.find hex → cumWeight l k < r := fun k hk =>
    not_le.mp (Nat.find_min hex hk)
  have hlt : Nat.find hex < l.length := by
    have h1 : Nat.find hex ≤ l.length - 1 := Nat.find_min' hex hr
    have h2 : 0 < l.length := List.length_pos.mpr hne
    omega
  refine ⟨Nat.find hex, hlt, ?_, hj0, hmin⟩
  exact weightedPick_first r l 0 (Nat.find hex) hlt (by simpa using hj0)
    (fun k hk => by simpa using hmin k hk)

/-- Counterexample for C5 as stated: over healthy instances with weights
0 and 1 the draw r = 0 lies in [0, total_weight) = [0, 1), yet the
weighted strategy selects the leading weight-0 instance. -/
theorem claim_C5_counterexample :
    (0:ℚ) ≤ 0 ∧
    (0:ℚ) < ((((([({ host := "a", port := 1, weight := 0 } : ServiceInstance),
        ({ host := "b", port := 2, weight := 1 } : ServiceInstance)].filter
          (fun i => i.is_healthy)).map (fun i => i.weight)).sum : ℤ)) : ℚ) ∧
    (select_instance 0 { strategy := "weighted" }
        [({ host := "a", port := 1, weight := 0 } : ServiceInstance),
         ({ host := "b", port := 2, weight := 1 } : ServiceInstance)]).1 =
      some ({ host := "a", port := 1, weight := 0 } : ServiceInstance) ∧
    ({ host := "a", port := 1, weight := 0 } : ServiceInstance).weight = 0 := by
  refine ⟨le_refl 0, ?_, ?_, rfl⟩
  · norm_num [List.filter]
  · norm_num [select_instance, weightedPick, List.filter]
    decide

/-- Claim C5, amended: the weighted strategy returns the first healthy
instance (in insertion order) whose cumulative weight meets or exceeds
the uniform draw `r` taken in [0, total_weight); an instance of weight 0
is never selected when the draw is positive (a draw of exactly 0 selects
the first healthy instance, which may have weight 0); and when the total
weight is 0 the first healthy instance is returned. -/
theorem claim_C5_amended (r : ℚ) (lb : LoadBalancer) (instances : List ServiceInstance)
    (hs : lb.strategy = "weighted")
    (hne : instances.filter (fun i => i.is_healthy) ≠ []) :
    (((instances.filter (fun i => i.is_healthy)).map (fun i => i.weight)).sum = 0 →
      (select_instance r lb instances).1 =
        (instances.filter (fun i => i.is_healthy)).head?) ∧
    (((instances.filter (fun i => i.is_healthy)).map (fun i => i.weight)).sum ≠ 0 →
      0 ≤ r →
      r < ((((instances.filter (fun i => i.is_healthy)).map (fun i => i.weight)).sum : ℤ) : ℚ) →
      ∃ j, ∃ hj : j < (instances.filter (fun i => i.is_healthy)).length,
        (select_instance r lb instances).1 =
          some ((instances.filter (fun i => i.is_healthy)).get ⟨j, hj⟩) ∧
        r ≤ cumWeight (instances.filter (fun i => i.is_healthy)) j ∧
        ∀ k, k < j → cumWeight (instances.filter (fun i => i.is_healthy)) k < r) ∧
    (((instances.filter (fun i => i.is_healthy)).map (fun i => i.weight)).sum ≠ 0 →
      0 < r →
      r < ((((instances.filter (fun i => i.is_healthy)).map (fun i => i.weight)).sum : ℤ) : ℚ) →
      ∀ inst, (select_instance r lb instances).1 = some inst → inst.weight ≠ 0) := by
  refine ⟨?_, ?_, ?_⟩
  · intro h0
    simp [select_instance, hs, List.isEmpty_iff, hne, h0]
  · intro h0 hr0 hrt
    obtain ⟨j, hj, hpick, hle, hmin⟩ := weightedPick_first_index r _ hne
      (by rw [cumWeight_last _ hne]; exact le_of_lt hrt)
    refine ⟨j, hj, ?_, hle, hmin⟩
    simp [select_instance, hs, List.isEmpty_iff, hne, h0, hpick]
  · intro h0 hr0 hrt inst hsel
    obtain ⟨j, hj, hpick, hle, hmin⟩ := weightedPick_first_index r _ hne
      (by rw [cumWeight_last _ hne]; exact le_of_lt hrt)
    have hsel2 : (select_instance r lb instances).1 =
        some ((instances.filter (fun i => i.is_healthy)).get ⟨j, hj⟩) := by
      simp [select_instance, hs, List.isEmpty_iff, hne, h0, hpick]
    rw [hsel] at hsel2
    injection hsel2 with hinst
    intro hw
    rw [hinst] at hw
    match j, hj, hle, hmin with
    | 0, hj, hle, hmin =>
      rw [cumWeight_zero_get _ hj, hw] at hle
      simp at hle
      linarith
    | k + 1, hj, hle, hmin =>
      have hk := hmin k (Nat.lt_succ_self k)
      rw [cumWeight_succ_get _ k hj, hw] at hle
      simp at hle
      linarith

/-- Witness for the amended C5: instances of weights 2 and 3 with draw
r = 3 ∈ [0, 5); the second instance is selected, its cumulative weight 5
meets the draw while the first cumulative weight 2 does not. -/
theorem claim_C5_amended_witness :
    ∃ j, ∃ hj : j < ([({ host := "a", port := 1, weight := 2 } : ServiceInstance),
        ({ host := "b", port := 2, weight := 3 } : ServiceInstance)].filter
          (fun i => i.is_healthy)).length,
      (select_instance 3 { strategy := "weighted" }
          [({ host := "a", port := 1, weight := 2 } : ServiceInstance),
           ({ host := "b", port := 2, weight := 3 } : ServiceInstance)]).1 =
        some (([({ host := "a", port := 1, weight := 2 } : ServiceInstance),
          ({ host := "b", port := 2, weight := 3 } : ServiceInstance)].filter
            (fun i => i.is_healthy)).get ⟨j, hj⟩) ∧
      (3:ℚ) ≤ cumWeight ([({ host := "a", port := 1, weight := 2 } : ServiceInstance),
        ({ host := "b", port := 2, weight := 3 } : ServiceInstance)].filter
          (fun i => i.is_healthy)) j ∧
      ∀ k, k < j → cumWeight ([({ host := "a", port := 1, weight := 2 } : ServiceInstance),
        ({ host := "b", port := 2, weight := 3 } : ServiceInstance)].filter
          (fun i => i.is_healthy)) k < 3 :=
  (claim_C5_amended 3 { strategy := "weighted" }
      [{ host := "a", port := 1, weight := 2 }, { host := "b", port := 2, weight := 3 }]
      rfl (by simp [List.filter])).2.1
    (by norm_num [List.filter])
    (by norm_num)
    (by norm_num [List.filter])

/-- Witness for C7: two healthy instances under the default round-robin
balancer; the two consecutive calls return both instances (a permutation
of the healthy pair). -/
theorem claim_C7_witness :
    let healthy := [({ host := "a", port := 1 } : ServiceInstance),
      ({ host := "b", port := 2 } : ServiceInstance)].filter (fun i => i.is_healthy)
    let K := healthy.length
    (select_instance 0 {} [({ host := "a", port := 1 } : ServiceInstance),
        ({ host := "b", port := 2 } : ServiceInstance)]).1 =
      healthy.get? (({} : LoadBalancer).current_index % K) ∧
    (select_instance 0 {} [({ host := "a", port := 1 } : ServiceInstance),
        ({ host := "b", port := 2 } : ServiceInstance)]).2.current_index =
      ({} : LoadBalancer).current_index + 1 ∧
    (rrRun K {} [({ host := "a", port := 1 } : ServiceInstance),
        ({ host := "b", port := 2 } : ServiceInstance)]).2.current_index =
      ({} : LoadBalancer).current_index + K ∧
    (∀ i, i < K → (rrRun K {} [({ host := "a", port := 1 } : ServiceInstance),
        ({ host := "b", port := 2 } : ServiceInstance)]).1.get? i =
      some (healthy.get? ((({} : LoadBalancer).current_index + i) % K))) ∧
    ((rrRun K {} [({ host := "a", port := 1 } : ServiceInstance),
        ({ host := "b", port := 2 } : ServiceInstance)]).1).Perm (healthy.map some) :=
  claim_C7 {} [{ host := "a", port := 1 }, { host := "b", port := 2 }] rfl
    (by simp [List.filter])

/-! ## Gateway health check (C4) -/

lemma health_check_eq (m : APIGatewayManager) (hs : m.services.length ≠ 0) :
    (health_check m).1 =
      if 3 * (2 * m.services.length) < 4 * healthyInstanceCount m then .healthy
      else if m.services.length < healthyInstanceCount m then .degraded
      else .unhealthy := by
  have hd : (0:ℚ) < ((m.services.length * 2 : ℕ) : ℚ) := by
    have h0 : 0 < m.services.length * 2 := by
      have := Nat.pos_of_ne_zero hs
      omega
    exact_mod_cast h0
  have h1 : ((3:ℚ)/4 < (healthyInstanceCount m : ℚ) / ((m.services.length * 2 : ℕ) : ℚ)) ↔
      (3 * (2 * m.services.length) < 4 * healthyInstanceCount m) := by
    rw [lt_div_iff₀ hd]
    constructor
    · intro hx
      have hx' : ((3 * (2 * m.services.length) : ℕ) : ℚ) <
          ((4 * healthyInstanceCount m : ℕ) : ℚ) := by
        push_cast at hx ⊢
        linarith
      exact_mod_cast hx'
    · intro hx
      have hx' : ((3 * (2 * m.services.length) : ℕ) : ℚ) <
          ((4 * healthyInstanceCount m : ℕ) : ℚ) := by exact_mod_cast hx
      push_cast at hx' ⊢
      linarith
  have h2 : ((1:ℚ)/2 < (healthyInstanceCount m : ℚ) / ((m.services.length * 2 : ℕ) : ℚ)) ↔
      (m.services.length < healthyInstanceCount m) := by
    rw [lt_div_iff₀ hd]
    constructor
    · intro hx
      have hx' : ((m.services.length : ℕ) : ℚ) < ((healthyInstanceCount m : ℕ) : ℚ) := by
        push_cast at hx ⊢
        linarith
      exact_mod_cast hx'
    · intro hx
      have hx' : ((m.services.length : ℕ) : ℚ) < ((healthyInstanceCount m : ℕ) : ℚ) := by
        exact_mod_cast hx
      push_cast at hx' ⊢
      linarith
  simp only [health_check]
  rw [if_neg hs]
  simp only [gt_iff_lt]
  by_cases hc1 : 3 * (2 * m.services.length) < 4 * healthyInstanceCount m
  · rw [if_pos (h1.mpr hc1), if_pos hc1]
  · rw [if_neg (fun hx => hc1 (h1.mp hx)), if_neg hc1]
    by_cases hc2 : m.services.length < healthyInstanceCount m
    · rw [if_pos (h2.mpr hc2), if_pos hc2]
    · rw [if_neg (fun hx => hc2 (h2.mp hx)), if_neg hc2]

/-- Counterexample for C4 as stated: a single service with one instance,
healthy.  The healthy-instance-to-total-instance ratio is 1 > 0.75, so
the claim's formula yields healthy, but the source divides the healthy
count by `total_services * 2` (ratio 1/2) and reports unhealthy. -/
theorem claim_C4_counterexample :
    (health_check { services := [("s", [{ host := "a", port := 1 }])] }).1 =
      GatewayStatus.unhealthy ∧
    health_check_claimed { services := [("s", [{ host := "a", port := 1 }])] } =
      GatewayStatus.healthy := by
  constructor
  · norm_num [health_check, healthyInstanceCount, List.filter]
  · norm_num [health_check_claimed, healthyInstanceCount, List.filter]

/-- Claim C4, amended: `health_check` computes the status from the ratio
of healthy instances to `2 * (number of registered services)` (the
source's fixed two-instances-per-service heuristic), not to the total
instance count: ratio > 0.75 yields healthy, ratio > 0.5 degraded,
otherwise unhealthy; with no services registered the status is healthy
by definition.  Stated with cleared denominators. -/
theorem claim_C4_amended (m : APIGatewayManager) :
    (m.services.length = 0 → (health_check m).1 = GatewayStatus.healthy) ∧
    (m.services.length ≠ 0 →
      ((health_check m).1 = GatewayStatus.healthy ↔
        3 * (2 * m.services.length) < 4 * healthyInstanceCount m) ∧
      ((health_check m).1 = GatewayStatus.degraded ↔
        ¬ 3 * (2 * m.services.length) < 4 * healthyInstanceCount m ∧
          m.services.length < healthyInstanceCount m) ∧
      ((health_check m).1 = GatewayStatus.unhealthy ↔
        healthyInstanceCount m ≤ m.services.length)) := by
  constructor
  · intro h0
    simp only [health_check]
    rw [if_pos h0]
  · intro hs
    rw [health_check_eq m hs]
    refine ⟨?_, ?_, ?_⟩ <;> (split_ifs with hc1 hc2 <;> simp_all <;> omega)

/-- Witness for the amended C4: one service with one healthy instance is
reported unhealthy (1 healthy instance ≤ 1 service). -/
theorem claim_C4_amended_witness :
    (health_check { services := [("s",
        [({ host := "a", port := 1 } : ServiceInstance)])] }).1 =
        GatewayStatus.unhealthy ↔
      healthyInstanceCount { services := [("s",
        [({ host := "a", port := 1 } : ServiceInstance)])] } ≤
        ({ services := [("s", [({ host := "a", port := 1 } : ServiceInstance)])] }
          : APIGatewayManager).services.length :=
  ((claim_C4_amended _).2 (by norm_num)).2.2

/-! ## Metrics (C8) -/

lemma record_request_no_trunc (t : ℚ) (m : GatewayMetrics)
    (h : m.requests_latency_ms.length + 1 ≤ 10000) :
    record_request true t 0 0 m =
      { m with requests_total := m.requests_total + 1,
               requests_success := m.requests_success + 1,
               requests_latency_ms := m.requests_latency_ms ++ [t],
               bytes_in := m.bytes_in + 0,
               bytes_out := m.bytes_out + 0 } := by
  simp only [record_request, if_true]
  rw [if_neg (by simp; omega)]

lemma recordAll_spec (ls : List ℚ) : ∀ (m : GatewayMetrics),
    m.requests_latency_ms.length + ls.length ≤ 10000 →
    (recordAll ls m).requests_latency_ms = m.requests_latency_ms ++ ls ∧
    (recordAll ls m).requests_total = m.requests_total + ls.length ∧
    (recordAll ls m).requests_success = m.requests_success + ls.length := by
  induction ls with
  | nil =>
    intro m _
    simp [recordAll]
  | cons t ts ih =>
    intro m h
    simp only [List.length_cons] at h
    have hstep := record_request_no_trunc t m (by omega)
    have hrec := ih (record_request true t 0 0 m) (by
      rw [hstep]
      simp only [List.length_append, List.length_cons, List.length_nil]
      omega)
    simp only [recordAll, List.foldl_cons] at hrec ⊢
    rw [hstep] at hrec ⊢
    refine ⟨?_, ?_, ?_⟩
    · rw [hrec.1]
      simp
    · rw [hrec.2.1]
      simp only [List.length_cons]
      omega
    · rw [hrec.2.2]
      simp only [List.length_cons]
      omega

lemma latencySeq_sorted (n : ℕ) : (latencySeq n).Sorted (fun a b => a ≤ b) := by
  refine List.Pairwise.map _ ?_ (List.pairwise_lt_range n)
  intro a b hab
  have : (a : ℚ) < (b : ℚ) := by exact_mod_cast hab
  linarith

lemma latencySeq_sum (n : ℕ) : (latencySeq n).sum = (n * (n + 1)) / 2 := by
  induction n with
  | zero => simp [latencySeq]
  | succ n ih =>
    rw [latencySeq, List.range_succ, List.map_append, List.sum_append, ← latencySeq, ih]
    simp only [List.map_cons, List.map_nil, List.sum_cons, List.sum_nil]
    push_cast
    ring

lemma latencySeq_getD (n j : ℕ) (hj : j < n) :
    (latencySeq n).getD j 0 = (j : ℚ) + 1 := by
  rw [latencySeq, List.getD, List.get?_eq_getElem?, List.getElem?_map,
    List.getElem?_range hj]
  rfl

/-- Claim C8: `get_stats` reports success_rate = success / max(1, total),
the average of the retained latencies, and p95/p99 as the sorted ring's
entries at 0-based indices floor(n·0.95) and floor(n·0.99) (all three 0
on an empty ring); recording exactly the latencies 1..100 yields
avg = 50.5, p95 = 96 and p99 = 100. -/
theorem claim_C8 (m : GatewayMetrics) :
    ((get_stats m).success_rate =
      (m.requests_success : ℚ) / ((max 1 m.requests_total : ℕ) : ℚ)) ∧
    (m.requests_latency_ms = [] →
      (get_stats m).avg_latency_ms = 0 ∧
      (get_stats m).p95_latency_ms = 0 ∧
      (get_stats m).p99_latency_ms = 0) ∧
    (m.requests_latency_ms ≠ [] →
      (get_stats m).avg_latency_ms =
        m.requests_latency_ms.sum / (m.requests_latency_ms.length : ℚ) ∧
      (get_stats m).p95_latency_ms =
        (m.requests_latency_ms.insertionSort (fun a b => a ≤ b)).getD
          (m.requests_latency_ms.length * 95 / 100) 0 ∧
      (get_stats m).p99_latency_ms =
        (m.requests_latency_ms.insertionSort (fun a b => a ≤ b)).getD
          (m.requests_latency_ms.length * 99 / 100) 0) ∧
    ((get_stats (recordAll (latencySeq 100) {})).avg_latency_ms = 101 / 2 ∧
      (get_stats (recordAll (latencySeq 100) {})).p95_latency_ms = 96 ∧
      (get_stats (recordAll (latencySeq 100) {})).p99_latency_ms = 100) := by
  have hlat : (recordAll (latencySeq 100) {}).requests_latency_ms = latencySeq 100 := by
    have := (recordAll_spec (latencySeq 100) {} (by simp [latencySeq])).1
    simpa using this
  have hlen : (latencySeq 100).length = 100 := by simp [latencySeq]
  have hsort : (latencySeq 100).insertionSort (fun a b => a ≤ b) = latencySeq 100 :=
    List.Sorted.insertionSort_eq (latencySeq_sorted 100)
  refine ⟨rfl, ?_, ?_, ?_, ?_, ?_⟩
  · intro h
    simp [get_stats, h]
  · intro h
    have h' : m.requests_latency_ms.isEmpty = false := by simpa [List.isEmpty_iff] using h
    simp [get_stats, h']
  · rw [get_stats]
    simp only [hlat, hlen]
    rw [if_neg (by simp [latencySeq])]
    rw [latencySeq_sum]
    norm_num
  · rw [get_stats]
    simp only [hlat, hlen, hsort]
    rw [if_neg (by simp [latencySeq])]
    rw [show (100 * 95 / 100 : ℕ) = 95 from rfl, latencySeq_getD 100 95 (by omega)]
    norm_num
  · rw [get_stats]
    simp only [hlat, hlen, hsort]
    rw [if_neg (by simp [latencySeq])]
    rw [show (100 * 99 / 100 : ℕ) = 99 from rfl, latencySeq_getD 100 99 (by omega)]
    norm_num

/-- Witness for C8: the empty metrics ring reports 0 for avg, p95 and
p99. -/
theorem claim_C8_witness :
    (get_stats {}).avg_latency_ms = 0 ∧
    (get_stats {}).p95_latency_ms = 0 ∧
    (get_stats {}).p99_latency_ms = 0 :=
  (claim_C8 {}).2.1 rfl

/-! ## Registry: add_route idempotence (C10) -/

lemma lookupS_append_of_none {α : Type} (k : String) (l l' : List (String × α))
    (h : lookupS k l = none) : lookupS k (l ++ l') = lookupS k l' := by
  induction l with
  | nil => simp
  | cons p rest ih =>
    obtain ⟨c, w⟩ := p
    simp only [lookupS] at h
    simp only [List.cons_append, lookupS]
    by_cases hc : c = k
    · rw [if_pos hc] at h
      exact absurd h (by simp)
    · rw [if_neg hc] at h ⊢
      exact ih h

lemma add_route_routes (route : RouteConfig) (m : APIGatewayManager) :
    (add_route route m).routes = updateS (routeKey route) route m.routes := rfl

lemma add_route_balancers (route : RouteConfig) (m : APIGatewayManager) :
    (add_route route m).load_balancers =
      if (lookupS route.backend_service m.load_balancers).isSome then m.load_balancers
      else m.load_balancers ++ [(route.backend_service, ({} : LoadBalancer))] := rfl

lemma add_route_limiters (route : RouteConfig) (m : APIGatewayManager) :
    (add_route route m).rate_limiters =
      if (lookupS (routeKey route) m.rate_limiters).isSome then m.rate_limiters
      else m.rate_limiters ++ [(routeKey route,
        { config := { strategy := .sliding_window,
                      requests_per_window := route.rate_limit_requests,
                      window_size_seconds := route.rate_limit_window_seconds } })] := rfl

lemma add_route_limiter_present (route : RouteConfig) (m : APIGatewayManager) :
    (lookupS (routeKey route) (add_route route m).rate_limiters).isSome := by
  rw [add_route_limiters]
  by_cases hc : (lookupS (routeKey route) m.rate_limiters).isSome
  · rw [if_pos hc]
    exact hc
  · rw [if_neg hc,
      lookupS_append_of_none _ _ _ (Option.not_isSome_iff_eq_none.mp hc)]
    simp [lookupS]

/-- Claim C10: two `add_route` calls whose configs share the same
`method:path` key leave the route count unchanged, store the latest
config under the key, change the rate-limiter map not at all, and create
no balancer for an already-seen backend service name. -/
theorem claim_C10 (m : APIGatewayManager) (r r' : RouteConfig)
    (hkey : routeKey r' = routeKey r) :
    (add_route r' (add_route r m)).routes.length = (add_route r m).routes.length ∧
    lookupS (routeKey r) (add_route r' (add_route r m)).routes = some r' ∧
    (add_route r' (add_route r m)).rate_limiters = (add_route r m).rate_limiters ∧
    ((lookupS r'.backend_service (add_route r m).load_balancers).isSome →
      (add_route r' (add_route r m)).load_balancers =
        (add_route r m).load_balancers) := by
  have hroutes1 : lookupS (routeKey r) (add_route r m).routes = some r := by
    rw [add_route_routes]
    exact lookupS_updateS_self _ _ _
  refine ⟨?_, ?_, ?_, ?_⟩
  · rw [add_route_routes, hkey, length_updateS,
      if_pos (by rw [hroutes1]; rfl)]
  · rw [add_route_routes, hkey]
    exact lookupS_updateS_self _ _ _
  · rw [add_route_limiters, hkey,
      if_pos (add_route_limiter_present r m)]
  · intro hb
    rw [add_route_balancers, if_pos hb]

/-- Witness for C10: adding the same `GET:/u` route twice (with a
different backend port the second time) to the empty registry. -/
theorem claim_C10_witness :
    (add_route routeU2 (add_route routeU1 {})).routes.length =
      (add_route routeU1 {}).routes.length ∧
    lookupS (routeKey routeU1) (add_route routeU2 (add_route routeU1 {})).routes =
      some routeU2 ∧
    (add_route routeU2 (add_route routeU1 {})).rate_limiters =
      (add_route routeU1 {}).rate_limiters ∧
    (add_route routeU2 (add_route routeU1 {})).load_balancers =
      (add_route routeU1 {}).load_balancers := by
  have h := claim_C10 {} routeU1 routeU2 rfl
  exact ⟨h.1, h.2.1, h.2.2.1, h.2.2.2 (by
    rw [add_route_balancers]
    simp [lookupS, routeU1, routeU2])⟩

/-! ## Rate limiter memory (C6) -/

/-- Per-client length bound: an `is_allowed` call keeps every client's
stored sequence within the quota (true half of C6). -/
lemma is_allowed_length_bound (now : ℚ) (client c : String) (rl : RateLimiter)
    (hinv : ∀ c', (getBucket c' rl.buckets).length ≤ rl.config.requests_per_window) :
    (getBucket c ((is_allowed now client rl).2).buckets).length ≤
      rl.config.requests_per_window := by
  simp only [is_allowed]
  split_ifs with h
  · by_cases hc : c = client
    · subst hc
      simp only [getBucket_updateS]
      simp only [List.length_append, List.length_cons, List.length_nil]
      omega
    · simp only [getBucket, lookupS_updateS_ne _ _ _ _ hc]
      exact hinv c
  · by_cases hc : c = client
    · subst hc
      simp only [getBucket_updateS]
      calc ((getBucket c rl.buckets).filter
            (fun ts => now - ts < rl.config.window_size_seconds)).length
          ≤ (getBucket c rl.buckets).length := List.length_filter_le _ _
        _ ≤ rl.config.requests_per_window := hinv c
    · simp only [getBucket, lookupS_updateS_ne _ _ _ _ hc]
      exact hinv c

/-- Evaluation of the code at C6's failing input: with a 1-second
window, client "a" requests at time 0; at time 1000 client "b" requests.
No sweep exists in the source, so "a" still occupies the map with its
stale timestamp — it is never evicted, although the spec requires a
periodic cleanup sweep (the unused `cleanup_interval_seconds` field
documents the intent). -/
theorem claim_C6_no_eviction :
    let rl0 : RateLimiter := { config := { strategy := .sliding_window,
                                           requests_per_window := 1,
                                           window_size_seconds := 1 } }
    lookupS "a" ((is_allowed 1000 "b" (is_allowed 0 "a" rl0).2).2).buckets =
      some [0] ∧
    ((is_allowed 1000 "b" (is_allowed 0 "a" rl0).2).2).buckets.length = 2 := by
  intro rl0
  exact ⟨by decide, by decide⟩

/-! ## Admission pipeline (C1, spec-modelled) -/

/-- Claim C1 (spec-modelled `admit_and_route`): the decision sequences
route lookup (unknown or disabled route fails first), then the route's
rate limiter, then the backend service's circuit breaker, then
load-balancer selection, and otherwise succeeds with the chosen
instance, which is a healthy member of the route's backend service
instances. -/
theorem claim_C1 (now r : ℚ) (route_key client_id : String) (m : APIGatewayManager) :
    (lookupS route_key m.routes = none →
      (admission_and_route now r route_key client_id m).1 = .error .routeNotFound) ∧
    (∀ route, lookupS route_key m.routes = some route →
      route.enabled = false →
      (admission_and_route now r route_key client_id m).1 = .error .routeDisabled) ∧
    (∀ route, lookupS route_key m.routes = some route → route.enabled = true →
      (is_allowed now client_id (routeLimiter route_key route m)).1 = false →
      (admission_and_route now r route_key client_id m).1 = .error .rateLimited) ∧
    (∀ route, lookupS route_key m.routes = some route → route.enabled = true →
      (is_allowed now client_id (routeLimiter route_key route m)).1 = true →
      (can_execute now (serviceBreaker route.backend_service m)).1 = false →
      (admission_and_route now r route_key client_id m).1 = .error .circuitOpen) ∧
    (∀ route, lookupS route_key m.routes = some route → route.enabled = true →
      (is_allowed now client_id (routeLimiter route_key route m)).1 = true →
      (can_execute now (serviceBreaker route.backend_service m)).1 = true →
      (select_instance r (serviceBalancer route.backend_service m)
        (serviceInstances route.backend_service m)).1 = none →
      (admission_and_route now r route_key client_id m).1 =
        .error .noHealthyInstance) ∧
    (∀ route, lookupS route_key m.routes = some route → route.enabled = true →
      (is_allowed now client_id (routeLimiter route_key route m)).1 = true →
      (can_execute now (serviceBreaker route.backend_service m)).1 = true →
      ∀ inst, (select_instance r (serviceBalancer route.backend_service m)
          (serviceInstances route.backend_service m)).1 = some inst →
        (admission_and_route now r route_key client_id m).1 = .ok inst ∧
        inst ∈ serviceInstances route.backend_service m ∧
        inst.is_healthy = true) := by
  refine ⟨?_, ?_, ?_, ?_, ?_, ?_⟩
  · intro hnone
    simp [admission_and_route, hnone]
  · intro route hroute hdis
    simp [admission_and_route, hroute, hdis]
  · intro route hroute hen hdeny
    simp [admission_and_route, hroute, hen, hdeny]
  · intro route hroute hen hallow hopen
    simp [admission_and_route, hroute, hen, hallow, hopen]
  · intro route hroute hen hallow hclosed hnone
    simp [admission_and_route, hroute, hen, hallow, hclosed, hnone]
  · intro route hroute hen hallow hclosed inst hsel
    refine ⟨by simp [admission_and_route, hroute, hen, hallow, hclosed, hsel], ?_, ?_⟩
    · exact (List.mem_filter.mp (select_mem_healthy r _ _ inst hsel)).1
    · simpa using (List.mem_filter.mp (select_mem_healthy r _ _ inst hsel)).2

/-- Witness for C1: on the concrete registry, admission succeeds and
returns the healthy registered instance. -/
theorem claim_C1_witness :
    (admission_and_route 0 0 "GET:/v" "client" mC1).1 = .ok instC1 ∧
    instC1 ∈ serviceInstances routeC1.backend_service mC1 ∧
    instC1.is_healthy = true :=
  (claim_C1 0 0 "GET:/v" "client" mC1).2.2.2.2.2 routeC1
    (by simp [mC1, lookupS])
    rfl
    (by norm_num [is_allowed, routeLimiter, defaultLimiter, routeC1, mC1,
      getBucket, lookupS])
    rfl
    instC1
    (by simp [select_instance, serviceBalancer, serviceInstances, mC1, instC1,
      routeC1, lookupS, List.filter])

end Gateway
